import Mathlib

/-!
Shallow embedding of the chip8 interpreter core (src/core/op.rs, src/core/cpu.rs,
src/core/timer.rs) and proofs about the specified behaviour.

Modelling conventions:
* `u8`/`u16` values are `Nat`s; wrapping arithmetic that the source performs on
  machine integers is written with an explicit `% 256` / `% 65536`.
* Fixed arrays (`ram`, `vram`, registers, stack) are total functions from `Nat`;
  only the in-range indices are ever used by the embedded code.
* A Rust panic caused by an out-of-bounds array index is modelled by the value
  `none`: fallible operations return `Option`.
* The capability drivers are modelled by their observable behaviour: the display
  driver by a presence flag plus a log of the frames pushed through `refresh`,
  the input driver by an optional pure poll function and blocking-read result,
  and the random source by an oracle byte stored in the state.
-/
namespace Chip8

/-- Operation type from src/core/op.rs; register operands `Reg(usize)` are
plain `Nat` indices. -/
inductive Op where
  | cls
  | ret
  | sys (nnn : Nat)
  | jmp (nnn : Nat)
  | call (nnn : Nat)
  | se (x kk : Nat)
  | sne (x kk : Nat)
  | sre (x y : Nat)
  | ld (x kk : Nat)
  | add (x kk : Nat)
  | mov (x y : Nat)
  | or (x y : Nat)
  | and (x y : Nat)
  | xor (x y : Nat)
  | addr (x y : Nat)
  | subr (x y : Nat)
  | shr (x y : Nat)
  | subnr (x y : Nat)
  | shl (x y : Nat)
  | srne (x y : Nat)
  | ldi (nnn : Nat)
  | jmpi (nnn : Nat)
  | rand (x kk : Nat)
  | draw (x y m : Nat)
  | skp (x : Nat)
  | sknp (x : Nat)
  | movd (x : Nat)
  | key (x : Nat)
  | ldd (x : Nat)
  | lds (x : Nat)
  | addi (x : Nat)
  | ldspr (x : Nat)
  | bcd (x : Nat)
  | str (x : Nat)
  | read (x : Nat)
deriving DecidableEq, Repr

/-- Error type from src/core/error.rs. -/
inductive Err where
  | badInstruction
  | dataAbort
  | driverMissing
  | loadFailure
  | malformedOp (op : Op)
  | prefetchAbort
  | stackOverflow
  | stackUnderflow
  | unimplementedOp (op : Op)
deriving DecidableEq, Repr

/-- Fatal classification from src/core/error.rs (`Error::fatal`). -/
def Err.fatal : Err → Bool
  | .driverMissing => false
  | .malformedOp _ => false
  | .unimplementedOp _ => false
  | _ => true

/-- Decoder from src/core/op.rs (`Op::decode`).  The source matches once on
the 4-tuple of nibbles; that tuple match is expressed here as a match on the
leading nibble with inner matches on the remaining nibbles, keeping the same
patterns in the same order (first match wins in both). -/
def Op.decode (code : Nat) : Option Op :=
  let nib3 := (code &&& 0xf000) >>> 12
  let nib2 := (code &&& 0xf00) >>> 8
  let nib1 := (code &&& 0xf0) >>> 4
  let nib0 := code &&& 0xf
  let nnn := code &&& 0xfff
  let x := nib2
  let y := nib1
  let kk := code &&& 0xff
  match nib3 with
  | 0 =>
    match nib2, nib1, nib0 with
    | 0, 0xe, 0 => some .cls
    | 0, 0xe, 0xe => some .ret
    | _, _, _ => some (.sys nnn)
  | 1 => some (.jmp nnn)
  | 2 => some (.call nnn)
  | 3 => some (.se x kk)
  | 4 => some (.sne x kk)
  | 5 =>
    match nib0 with
    | 0 => some (.sre x y)
    | _ => none
  | 6 => some (.ld x kk)
  | 7 => some (.add x kk)
  | 8 =>
    match nib0 with
    | 0 => some (.mov x y)
    | 1 => some (.or x y)
    | 2 => some (.and x y)
    | 3 => some (.xor x y)
    | 4 => some (.addr x y)
    | 5 => some (.subr x y)
    | 6 => some (.shr y x)
    | 7 => some (.subnr x y)
    | 0xe => some (.shl y x)
    | _ => none
  | 9 =>
    match nib0 with
    | 0 => some (.srne x y)
    | _ => none
  | 0xa => some (.ldi nnn)
  | 0xb => some (.jmpi nnn)
  | 0xc => some (.rand x kk)
  | 0xd => some (.draw x y nib0)
  | 0xe =>
    match nib1, nib0 with
    | 9, 0xe => some (.skp x)
    | 0xa, 1 => some (.sknp x)
    | _, _ => none
  | 0xf =>
    match nib1, nib0 with
    | 0, 7 => some (.movd x)
    | 0, 0xa => some (.key x)
    | 1, 5 => some (.ldd x)
    | 1, 8 => some (.lds x)
    | 1, 0xe => some (.addi x)
    | 2, 9 => some (.ldspr x)
    | 3, 3 => some (.bcd x)
    | 5, 5 => some (.str x)
    | 6, 5 => some (.read x)
    | _, _ => none
  | _ => none

/-- All register operands of an operation are in range 0..=15 (the property the
`x @ 0..=MAX_REG` match guards in `Cpu::exec` test for). -/
def Op.regsOk : Op → Bool
  | .se x _ => x ≤ 15
  | .sne x _ => x ≤ 15
  | .sre x y => x ≤ 15 && y ≤ 15
  | .ld x _ => x ≤ 15
  | .add x _ => x ≤ 15
  | .mov x y => x ≤ 15 && y ≤ 15
  | .or x y => x ≤ 15 && y ≤ 15
  | .and x y => x ≤ 15 && y ≤ 15
  | .xor x y => x ≤ 15 && y ≤ 15
  | .addr x y => x ≤ 15 && y ≤ 15
  | .subr x y => x ≤ 15 && y ≤ 15
  | .shr x y => x ≤ 15 && y ≤ 15
  | .subnr x y => x ≤ 15 && y ≤ 15
  | .shl x y => x ≤ 15 && y ≤ 15
  | .srne x y => x ≤ 15 && y ≤ 15
  | .rand x _ => x ≤ 15
  | .draw x y _ => x ≤ 15 && y ≤ 15
  | .skp x => x ≤ 15
  | .sknp x => x ≤ 15
  | .movd x => x ≤ 15
  | .key x => x ≤ 15
  | .ldd x => x ≤ 15
  | .lds x => x ≤ 15
  | .addi x => x ≤ 15
  | .ldspr x => x ≤ 15
  | .bcd x => x ≤ 15
  | .str x => x ≤ 15
  | .read x => x ≤ 15
  | _ => true

/-- Constants from src/core/cpu.rs. -/
def LOAD_OFFSET : Nat := 0x200

def RAM_BYTES : Nat := 0x1000

def MAX_STACK_DEPTH : Nat := 0x20

def MAX_REG : Nat := 0x0f

def INDEX_REG : Nat := 0x00

def FLAG_REG : Nat := 0x0f

def DISPLAY_WIDTH : Nat := 0x40

def DISPLAY_HEIGHT : Nat := 0x20

def FONT_SPRITE_BYTES_PER : Nat := 0x05

def FONT_SPRITES_RAM_START : Nat := 0x0

/-- Input capability (src/driver.rs trait `Input`): a pure poll predicate and
the key value that a `block()` call would return. -/
structure InputDrv where
  poll : Nat → Bool
  blockKey : Nat

/-- Machine state of `Cpu` (src/core/cpu.rs) plus the observable driver
environment.  `refreshLog` records the frames pushed to the display driver
(most recent first); `randOracle` is the byte the random source would yield. -/
structure Cpu where
  pc : Nat
  sp : Nat
  i : Nat
  v : Nat → Nat
  ram : Nat → Nat
  vram : Nat → Bool
  stack : Nat → Nat
  displayDrv : Bool
  inputDrv : Option InputDrv
  dt : Nat
  st : Nat
  randOracle : Nat
  refreshLog : List (Nat → Bool)

/-- Sprite byte bit test from the draw loop:
`(spr_byte & (1 << (7 - h))) != 0`. -/
def sprBit (spr h : Nat) : Bool := (spr &&& (1 <<< (7 - h))) != 0

/-- One iteration of the inner (8-column) draw loop of `Cpu::exec` (Op::Draw):
accumulator is the frame buffer together with the running `did_clear` flag. -/
def drawStep (vx vrow spr : Nat) (acc : (Nat → Bool) × Bool) (h : Nat) :
    (Nat → Bool) × Bool :=
  let sb := sprBit spr h
  let hc := (vx + h) % DISPLAY_WIDTH
  let pos := vrow * DISPLAY_WIDTH + hc
  let willClear := acc.1 pos && sb
  (Function.update acc.1 pos (Bool.xor (acc.1 pos) sb), acc.2 || willClear)

/-- The outer (row) draw loop of `Cpu::exec` (Op::Draw).  `n` is the current
row, the second argument the number of rows still to draw.  The register file
is threaded through because the source re-reads `v[x]`/`v[y]` every iteration
and writes `v[FLAG_REG]` at the end of every row.  A `ram` access out of
bounds (possible because the bounds check uses `i + m`, not each row offset)
is a panic, i.e. `none`. -/
def drawRowsAux (ram : Nat → Nat) (i x y : Nat) :
    Nat → Nat → (Nat → Bool) → (Nat → Nat) → Bool →
    Option ((Nat → Bool) × (Nat → Nat) × Bool)
  | _, 0, vram, v, dc => some (vram, v, dc)
  | n, rem + 1, vram, v, dc =>
    let off := i + n
    if RAM_BYTES ≤ off then
      none
    else
      let spr := ram off
      let vrow := (v y + n) % DISPLAY_HEIGHT
      let r := (List.range 8).foldl (drawStep (v x) vrow spr) (vram, dc)
      drawRowsAux ram i x y (n + 1) rem r.1
        (Function.update v FLAG_REG (if r.2 then 1 else 0)) r.2

/-- Execute one decoded operation: `Cpu::exec` from src/core/cpu.rs.
Result `none` is a panic (out-of-bounds array index in the source); otherwise
the new state together with `some err` for `Err(err)` or `none` for `Ok(())`.
The `pc += 2` baseline advance happens before the dispatch, as in the source. -/
def exec (s : Cpu) (op : Op) : Option (Cpu × Option Err) :=
  let c := { s with pc := (s.pc + 2) % 65536 }
  match op with
  | .sys _ => some (c, some (.unimplementedOp op))
  | .cls =>
    let c := { c with vram := fun _ => false }
    if c.displayDrv then
      some ({ c with refreshLog := c.vram :: c.refreshLog }, none)
    else
      some (c, some .driverMissing)
  | .ret =>
    if c.sp = 0 then
      some (c, some .stackUnderflow)
    else if c.sp - 1 < MAX_STACK_DEPTH then
      some ({ c with sp := c.sp - 1, pc := c.stack (c.sp - 1) }, none)
    else
      none
  | .jmp nnn => some ({ c with pc := nnn }, none)
  | .call nnn =>
    if c.sp > MAX_STACK_DEPTH then
      some (c, some .stackOverflow)
    else if c.sp < MAX_STACK_DEPTH then
      some ({ c with stack := Function.update c.stack c.sp c.pc,
                     sp := c.sp + 1, pc := nnn }, none)
    else
      none
  | .se x kk =>
    if x ≤ MAX_REG then
      some (if c.v x = kk then { c with pc := (c.pc + 2) % 65536 } else c, none)
    else some (c, some (.malformedOp op))
  | .sne x kk =>
    if x ≤ MAX_REG then
      some (if c.v x ≠ kk then { c with pc := (c.pc + 2) % 65536 } else c, none)
    else some (c, some (.malformedOp op))
  | .sre x y =>
    if x ≤ MAX_REG ∧ y ≤ MAX_REG then
      some (if c.v x = c.v y then { c with pc := (c.pc + 2) % 65536 } else c, none)
    else some (c, some (.malformedOp op))
  | .ld x kk =>
    if x ≤ MAX_REG then
      some ({ c with v := Function.update c.v x kk }, none)
    else some (c, some (.malformedOp op))
  | .add x kk =>
    if x ≤ MAX_REG then
      some ({ c with v := Function.update c.v x ((c.v x + kk) % 256) }, none)
    else some (c, some (.malformedOp op))
  | .mov x y =>
    if x ≤ MAX_REG ∧ y ≤ MAX_REG then
      some ({ c with v := Function.update c.v x (c.v y) }, none)
    else some (c, some (.malformedOp op))
  | .or x y =>
    if x ≤ MAX_REG ∧ y ≤ MAX_REG then
      some ({ c with v := Function.update c.v x (c.v x ||| c.v y) }, none)
    else some (c, some (.malformedOp op))
  | .and x y =>
    if x ≤ MAX_REG ∧ y ≤ MAX_REG then
      some ({ c with v := Function.update c.v x (c.v x &&& c.v y) }, none)
    else some (c, some (.malformedOp op))
  | .xor x y =>
    if x ≤ MAX_REG ∧ y ≤ MAX_REG then
      some ({ c with v := Function.update c.v x (c.v x ^^^ c.v y) }, none)
    else some (c, some (.malformedOp op))
  | .addr x y =>
    if x ≤ MAX_REG ∧ y ≤ MAX_REG then
      let sum := c.v x + c.v y
      some ({ c with v := Function.update (Function.update c.v x (sum % 256))
                            FLAG_REG (if 256 ≤ sum then 1 else 0) }, none)
    else some (c, some (.malformedOp op))
  | .subr x y =>
    if x ≤ MAX_REG ∧ y ≤ MAX_REG then
      let val := (c.v x + 256 - c.v y) % 256
      some ({ c with v := Function.update (Function.update c.v x val)
                            FLAG_REG (if c.v x < c.v y then 0 else 1) }, none)
    else some (c, some (.malformedOp op))
  | .shr x y =>
    if x ≤ MAX_REG ∧ y ≤ MAX_REG then
      let v1 := Function.update c.v FLAG_REG (c.v y &&& 0x01)
      some ({ c with v := Function.update v1 x (v1 y >>> 1) }, none)
    else some (c, some (.malformedOp op))
  | .subnr x y =>
    if x ≤ MAX_REG ∧ y ≤ MAX_REG then
      let val := (c.v y + 256 - c.v x) % 256
      some ({ c with v := Function.update (Function.update c.v x val)
                            FLAG_REG (if c.v y < c.v x then 0 else 1) }, none)
    else some (c, some (.malformedOp op))
  | .shl x y =>
    if x ≤ MAX_REG ∧ y ≤ MAX_REG then
      let v1 := Function.update c.v FLAG_REG (c.v y &&& 0x80)
      some ({ c with v := Function.update v1 x ((v1 y <<< 1) % 256) }, none)
    else some (c, some (.malformedOp op))
  | .srne x y =>
    if x ≤ MAX_REG ∧ y ≤ MAX_REG then
      some (if c.v x ≠ c.v y then { c with pc := (c.pc + 2) % 65536 } else c, none)
    else some (c, some (.malformedOp op))
  | .ldi nnn => some ({ c with i := nnn }, none)
  | .jmpi nnn => some ({ c with pc := (nnn + c.v INDEX_REG) % 65536 }, none)
  | .rand x kk =>
    if x ≤ MAX_REG then
      some ({ c with v := Function.update c.v x (c.randOracle &&& kk) }, none)
    else some (c, some (.malformedOp op))
  | .draw x y m =>
    if x ≤ MAX_REG ∧ y ≤ MAX_REG then
      if (c.i + m) % 65536 < RAM_BYTES then
        match drawRowsAux c.ram c.i x y 0 m c.vram c.v false with
        | none => none
        | some (vram1, v1, _) =>
          let c := { c with vram := vram1, v := v1 }
          if c.displayDrv then
            some ({ c with refreshLog := c.vram :: c.refreshLog }, none)
          else
            some (c, some .driverMissing)
      else
        some (c, some .dataAbort)
    else some (c, some (.malformedOp op))
  | .skp x =>
    if x ≤ MAX_REG then
      match c.inputDrv with
      | some d =>
        some (if d.poll (c.v x) then { c with pc := (c.pc + 2) % 65536 } else c, none)
      | none => some (c, some .driverMissing)
    else some (c, some (.malformedOp op))
  | .sknp x =>
    if x ≤ MAX_REG then
      match c.inputDrv with
      | some d =>
        some (if !d.poll (c.v x) then { c with pc := (c.pc + 2) % 65536 } else c, none)
      | none =>
        some ({ c with pc := (c.pc + 2) % 65536 }, some .driverMissing)
    else some (c, some (.malformedOp op))
  | .movd x =>
    if x ≤ MAX_REG then
      some ({ c with v := Function.update c.v x c.dt }, none)
    else some (c, some (.malformedOp op))
  | .key x =>
    if x ≤ MAX_REG then
      match c.inputDrv with
      | some d => some ({ c with v := Function.update c.v x d.blockKey }, none)
      | none => some (c, some .driverMissing)
    else some (c, some (.malformedOp op))
  | .ldd x =>
    if x ≤ MAX_REG then
      some ({ c with dt := c.v x }, none)
    else some (c, some (.malformedOp op))
  | .lds x =>
    if x ≤ MAX_REG then
      some ({ c with st := c.v x }, none)
    else some (c, some (.malformedOp op))
  | .addi x =>
    if x ≤ MAX_REG then
      some ({ c with i := (c.i + c.v x) % 65536 }, none)
    else some (c, some (.malformedOp op))
  | .ldspr x =>
    if x ≤ MAX_REG then
      some ({ c with i := FONT_SPRITES_RAM_START + FONT_SPRITE_BYTES_PER * c.v x }, none)
    else some (c, some (.malformedOp op))
  | .bcd x =>
    if x ≤ MAX_REG then
      if c.i < RAM_BYTES - 2 then
        let vx := c.v x
        let h := vx / 100
        let t := (vx - h * 100) / 10
        let o := vx - h * 100 - t * 10
        some ({ c with ram := Function.update (Function.update
                 (Function.update c.ram c.i h) (c.i + 1) t) (c.i + 2) o }, none)
      else
        some (c, some .dataAbort)
    else some (c, some (.malformedOp op))
  | .str x =>
    if x ≤ MAX_REG then
      if c.i + x < RAM_BYTES then
        some ({ c with ram := fun a =>
                 if c.i ≤ a ∧ a ≤ c.i + x then c.v (a - c.i) else c.ram a }, none)
      else
        some (c, some .dataAbort)
    else some (c, some (.malformedOp op))
  | .read x =>
    if x ≤ MAX_REG then
      if c.i + x < RAM_BYTES then
        some ({ c with v := fun k =>
                 if k ≤ x then c.ram (c.i + k) else c.v k }, none)
      else
        some (c, some .dataAbort)
    else some (c, some (.malformedOp op))

/-- Fetch: `Cpu::fetch` from src/core/cpu.rs.  The guard only rejects
`pc > RAM_BYTES - 1`; at `pc = RAM_BYTES - 1` the read of `ram[pc + 1]` is out
of bounds (a panic, modelled as `none`). -/
def fetch (c : Cpu) : Option (Except Err Nat) :=
  if c.pc > RAM_BYTES - 1 then
    some (.error .prefetchAbort)
  else if c.pc + 1 ≤ RAM_BYTES - 1 then
    some (.ok ((c.ram c.pc <<< 8) ||| c.ram (c.pc + 1)))
  else
    none

/-- One fetch-decode-execute step: `Cpu::tick`. -/
def tick (c : Cpu) : Option (Cpu × Option Err) :=
  match fetch c with
  | none => none
  | some (.error e) => some (c, some e)
  | some (.ok code) =>
    match Op.decode code with
    | none => some (c, some .badInstruction)
    | some op => exec c op

/-- Program load: `Cpu::load`. -/
def load (s : Cpu) (data : List Nat) : Cpu × Option Err :=
  if data.length > RAM_BYTES - LOAD_OFFSET then
    (s, some .loadFailure)
  else
    ({ s with
        ram := fun a =>
          if LOAD_OFFSET ≤ a ∧ a < LOAD_OFFSET + data.length then
            data.getD (a - LOAD_OFFSET) 0
          else s.ram a,
        pc := LOAD_OFFSET }, none)

/-- State visible to one iteration of the Timer Clock loop (src/core/timer.rs):
the two shared counters, the `st_was_pos` local, and whether a sound driver is
installed. -/
structure TimerClock where
  dt : Nat
  st : Nat
  stWasPos : Bool
  soundDrv : Bool

/-- Sound capability calls made by the timer loop. -/
inductive SoundEv where
  | startBuzz
  | stopBuzz
deriving DecidableEq, Repr

/-- One iteration of the Timer Clock loop body (src/core/timer.rs, inside
`Timer::new`), taken in isolation: with no concurrent interference the
`compare_and_swap` observes the just-loaded value and commits, returning the
previous value, and `try_lock` on the sound driver succeeds. -/
def timerTick (t : TimerClock) : TimerClock × Option SoundEv :=
  let dt1 := if t.dt > 0 then t.dt - 1 else t.dt
  let v := t.st
  let st1 := if t.st > 0 then t.st - 1 else t.st
  if v ≤ 1 && t.stWasPos then
    ({ t with dt := dt1, st := st1, stWasPos := false },
     if t.soundDrv then some .stopBuzz else none)
  else if v > 1 && !t.stWasPos then
    ({ t with dt := dt1, st := st1, stWasPos := true },
     if t.soundDrv then some .startBuzz else none)
  else
    ({ t with dt := dt1, st := st1 }, none)

/-- State after executing an operation (the panic outcome keeps the old
state; it is only used where execution is known not to panic). -/
def execState (c : Cpu) (op : Op) : Cpu :=
  match exec c op with
  | none => c
  | some (c1, _) => c1

/-- Error component of executing an operation (`none` for success or panic). -/
def execErr (c : Cpu) (op : Op) : Option Err :=
  match exec c op with
  | none => none
  | some (_, e) => e

/-- State after one tick (panic keeps the old state). -/
def tickState (c : Cpu) : Cpu :=
  match tick c with
  | none => c
  | some (c1, _) => c1

/-- Error component of one tick. -/
def tickErr (c : Cpu) : Option Err :=
  match tick c with
  | none => none
  | some (_, e) => e

/-- A convenient all-zero machine state with no drivers attached. -/
def baseCpu : Cpu where
  pc := 0x200
  sp := 0
  i := 0
  v := fun _ => 0
  ram := fun _ => 0
  vram := fun _ => false
  stack := fun _ => 0
  displayDrv := false
  inputDrv := none
  dt := 0
  st := 0
  randOracle := 0
  refreshLog := []

/-- Toggle mask contributed by sprite row `n`: the bit is set iff some set
sprite bit of that row lands on `pos`.  The row wraps at `DISPLAY_HEIGHT`, the
column at `DISPLAY_WIDTH`, with no interaction between the axes. -/
def rowToggle1 (ram : Nat → Nat) (i vx vy n pos : Nat) : Bool :=
  (List.range 8).any fun h =>
    sprBit (ram (i + n)) h &&
      (pos == ((vy + n) % DISPLAY_HEIGHT) * DISPLAY_WIDTH + (vx + h) % DISPLAY_WIDTH)

/-- Collision test for sprite row `n` against a frame buffer. -/
def rowCollide1 (ram : Nat → Nat) (vram : Nat → Bool) (i vx vy n : Nat) : Bool :=
  (List.range 8).any fun h =>
    sprBit (ram (i + n)) h &&
      vram (((vy + n) % DISPLAY_HEIGHT) * DISPLAY_WIDTH + (vx + h) % DISPLAY_WIDTH)

/-- Toggle mask of sprite rows `n, n+1, ..., n+rem-1` at a pixel position. -/
def rowsToggle (ram : Nat → Nat) (i vx vy n rem pos : Nat) : Bool :=
  (List.range rem).any fun k => rowToggle1 ram i vx vy (n + k) pos

/-- Collision test of sprite rows `n, ..., n+rem-1` against a frame buffer. -/
def rowsCollide (ram : Nat → Nat) (vram : Nat → Bool) (i vx vy n rem : Nat) : Bool :=
  (List.range rem).any fun k => rowCollide1 ram vram i vx vy (n + k)

def rowsCollideClear (ram : Nat → Nat) (vram : Nat → Bool) (i vx vy n rem : Nat) : Bool :=
  (List.range rem).any fun k =>
    (List.range 8).any fun h =>
      sprBit (ram (i + (n + k))) h &&
        !(vram (((vy + (n + k)) % DISPLAY_HEIGHT) * DISPLAY_WIDTH + (vx + h) % DISPLAY_WIDTH))

/-- Toggle mask of a whole sprite draw at a pixel position: the sprite bit of
row `n < m`, column `h < 8` lands at row `(v[y] + n) % 32` and column
`(v[x] + h) % 64`, each axis wrapping independently. -/
def spriteToggles (s : Cpu) (x y m pos : Nat) : Bool :=
  rowsToggle s.ram s.i (s.v x) (s.v y) 0 m pos

/-- Some set sprite bit covers a pixel that is set in the frame buffer. -/
def spriteHitsSetPixel (s : Cpu) (x y m : Nat) : Bool :=
  rowsCollide s.ram s.vram s.i (s.v x) (s.v y) 0 m

/-- Some set sprite bit covers a pixel that is clear in the frame buffer. -/
def spriteHitsClearPixel (s : Cpu) (x y m : Nat) : Bool :=
  rowsCollideClear s.ram s.vram s.i (s.v x) (s.v y) 0 m

def c3cex : Cpu := { baseCpu with sp := 32 }

def c4cex : Cpu := { baseCpu with pc := 4095 }

def c5cex : Cpu := { baseCpu with v := fun k => if k = 1 then 0x80 else 0 }

def c5wit : Cpu := { baseCpu with v := fun k => if k = 1 then 0x81 else 0 }

def c6cex : Cpu := { baseCpu with i := 4088 }

def c7wit : Cpu :=
  { baseCpu with
      i := 0x400
      v := fun k => if k = 0 then 60 else if k = 1 then 30 else 0
      ram := fun a => if 0x400 ≤ a ∧ a ≤ 0x402 then 0xff else 0 }

def c1cex : Cpu :=
  { baseCpu with i := 0x400, ram := fun a => if a = 0x400 then 0x80 else 0 }

def c1wit : Cpu :=
  { baseCpu with
      i := 0x400
      v := fun k => if k = 0 then 3 else if k = 1 then 4 else 0
      vram := fun p => p == 4 * 64 + 3
      ram := fun a => if a = 0x400 then 0xc0 else 0 }

/-- Machine state equal except for the baseline `pc += 2` advance; the
refresh log (capability notifications) is also untouched. -/
def FrameOnlyPc (s s1 : Cpu) : Prop :=
  s1.pc = (s.pc + 2) % 65536 ∧ s1.sp = s.sp ∧ s1.i = s.i ∧
  (∀ k, s1.v k = s.v k) ∧ (∀ a, s1.ram a = s.ram a) ∧
  (∀ p, s1.vram p = s.vram p) ∧ (∀ j, s1.stack j = s.stack j) ∧
  s1.dt = s.dt ∧ s1.st = s.st ∧ s1.refreshLog = s.refreshLog

def c2cex : Cpu :=
  { baseCpu with
      ram := fun a => if a = 0x200 then 0x00 else if a = 0x201 then 0xe0 else 0xff
      vram := fun p => p == 5 }

def c2wits1 : Cpu := { baseCpu with pc := 0x202 }

/-- Congruence for `List.any`. -/
theorem listAny_congr {α : Type} {l : List α} {f g : α → Bool}
    (h : ∀ a ∈ l, f a = g a) : l.any f = l.any g := by
  induction l with
  | nil => rfl
  | cons a l ih =>
    simp only [List.any_cons, h a (by simp)]
    rw [ih fun b hb => h b (by simp [hb])]

/-- Congruence for `List.any` over `List.range`. -/
theorem anyRange_congr {n : Nat} {f g : Nat → Bool} (h : ∀ k < n, f k = g k) :
    (List.range n).any f = (List.range n).any g :=
  listAny_congr fun a ha => h a (List.mem_range.mp ha)

/-- Peel the first element off an `any` over `List.range (n + 1)`. -/
theorem anyRange_succ_head (n : Nat) (f : Nat → Bool) :
    (List.range (n + 1)).any f = (f 0 || (List.range n).any fun k => f (k + 1)) := by
  rw [List.range_succ_eq_map, List.any_cons, List.any_map]
  rfl

/-- The columns touched by one sprite row are pairwise distinct. -/
theorem drawCols_nodup (vx : Nat) :
    ((List.range 8).map fun h => (vx + h) % DISPLAY_WIDTH).Nodup := by
  refine List.Nodup.map_on ?_ (List.nodup_range 8)
  intro a ha b hb hab
  rw [List.mem_range] at ha hb
  simp only [DISPLAY_WIDTH] at hab
  omega

/-- Pointwise effect of the inner draw loop on the frame buffer: each pixel of
the row is XORed with its sprite bit; positions are `vrow * 64 + (vx + h) % 64`. -/
theorem drawFold_fst (vx vrow spr : Nat) (L : List Nat) (vram : Nat → Bool) (dc : Bool)
    (hnd : (L.map fun h => (vx + h) % DISPLAY_WIDTH).Nodup) (pos : Nat) :
    (L.foldl (drawStep vx vrow spr) (vram, dc)).1 pos =
      Bool.xor (vram pos)
        (L.any fun h => sprBit spr h &&
          (pos == vrow * DISPLAY_WIDTH + (vx + h) % DISPLAY_WIDTH)) := by
  induction L generalizing vram dc with
  | nil => simp
  | cons a L ih =>
    rw [List.map_cons, List.nodup_cons] at hnd
    obtain ⟨hna, hnd⟩ := hnd
    rw [List.foldl_cons]
    rw [ih _ _ hnd]
    simp only [drawStep, List.any_cons]
    by_cases hpos : pos = vrow * DISPLAY_WIDTH + (vx + a) % DISPLAY_WIDTH
    · subst hpos
      rw [Function.update_same]
      have hL : (L.any fun h => sprBit spr h &&
          ((vrow * DISPLAY_WIDTH + (vx + a) % DISPLAY_WIDTH : Nat) ==
            vrow * DISPLAY_WIDTH + (vx + h) % DISPLAY_WIDTH)) = false := by
        rw [List.any_eq_false]
        intro h hh
        have hne : (vx + a) % DISPLAY_WIDTH ≠ (vx + h) % DISPLAY_WIDTH := by
          intro hc
          exact hna (by rw [hc]; exact List.mem_map_of_mem _ hh)
        have hb : ((vrow * DISPLAY_WIDTH + (vx + a) % DISPLAY_WIDTH : Nat) ==
            vrow * DISPLAY_WIDTH + (vx + h) % DISPLAY_WIDTH) = false := by
          simp only [beq_eq_false_iff_ne, ne_eq]
          omega
        simp [hb]
      rw [hL]
      simp [Bool.xor_assoc]
    · rw [Function.update_noteq hpos]
      have : ((pos == vrow * DISPLAY_WIDTH + (vx + a) % DISPLAY_WIDTH) : Bool) = false := by
        simpa using hpos
      rw [this]
      simp

/-- The `did_clear` flag computed by the inner draw loop: it becomes true iff a
set sprite bit lands on an already-set pixel of this row. -/
theorem drawFold_snd (vx vrow spr : Nat) (L : List Nat) (vram : Nat → Bool) (dc : Bool)
    (hnd : (L.map fun h => (vx + h) % DISPLAY_WIDTH).Nodup) :
    (L.foldl (drawStep vx vrow spr) (vram, dc)).2 =
      (dc || L.any fun h => sprBit spr h &&
        vram (vrow * DISPLAY_WIDTH + (vx + h) % DISPLAY_WIDTH)) := by
  induction L generalizing vram dc with
  | nil => simp
  | cons a L ih =>
    rw [List.map_cons, List.nodup_cons] at hnd
    obtain ⟨hna, hnd⟩ := hnd
    rw [List.foldl_cons]
    rw [ih _ _ hnd]
    simp only [drawStep, List.any_cons]
    have hagree : (L.any fun h => sprBit spr h &&
        Function.update vram (vrow * DISPLAY_WIDTH + (vx + a) % DISPLAY_WIDTH)
          (Bool.xor (vram (vrow * DISPLAY_WIDTH + (vx + a) % DISPLAY_WIDTH)) (sprBit spr a))
          (vrow * DISPLAY_WIDTH + (vx + h) % DISPLAY_WIDTH)) =
        (L.any fun h => sprBit spr h &&
          vram (vrow * DISPLAY_WIDTH + (vx + h) % DISPLAY_WIDTH)) := by
      refine listAny_congr fun h hh => ?_
      have : (vx + h) % DISPLAY_WIDTH ≠ (vx + a) % DISPLAY_WIDTH := by
        intro hc
        exact hna (by rw [← hc]; exact List.mem_map_of_mem _ hh)
      rw [Function.update_noteq (by omega)]
    rw [hagree]
    cases dc <;> cases h0 : sprBit spr a <;>
      cases h1 : vram (vrow * DISPLAY_WIDTH + (vx + a) % DISPLAY_WIDTH) <;> simp

theorem rowsToggle_succ (ram : Nat → Nat) (i vx vy n rem pos : Nat) :
    rowsToggle ram i vx vy n (rem + 1) pos =
      (rowToggle1 ram i vx vy n pos || rowsToggle ram i vx vy (n + 1) rem pos) := by
  unfold rowsToggle
  rw [anyRange_succ_head]
  have h2 : ((List.range rem).any fun k => rowToggle1 ram i vx vy (n + (k + 1)) pos) =
      (List.range rem).any fun k => rowToggle1 ram i vx vy (n + 1 + k) pos :=
    anyRange_congr fun k _ => by rw [show n + (k + 1) = n + 1 + k from by omega]
  rw [h2, Nat.add_zero]

theorem rowsCollide_succ (ram : Nat → Nat) (vram : Nat → Bool) (i vx vy n rem : Nat) :
    rowsCollide ram vram i vx vy n (rem + 1) =
      (rowCollide1 ram vram i vx vy n || rowsCollide ram vram i vx vy (n + 1) rem) := by
  unfold rowsCollide
  rw [anyRange_succ_head]
  have h2 : ((List.range rem).any fun k => rowCollide1 ram vram i vx vy (n + (k + 1))) =
      (List.range rem).any fun k => rowCollide1 ram vram i vx vy (n + 1 + k) :=
    anyRange_congr fun k _ => by rw [show n + (k + 1) = n + 1 + k from by omega]
  rw [h2, Nat.add_zero]

/-- A position toggled by row `n` lies in display row `(vy + n) % 32`. -/
theorem rowToggle1_div {ram : Nat → Nat} {i vx vy n pos : Nat}
    (h : rowToggle1 ram i vx vy n pos = true) :
    pos / DISPLAY_WIDTH = (vy + n) % DISPLAY_HEIGHT := by
  unfold rowToggle1 at h
  rw [List.any_eq_true] at h
  obtain ⟨hh, _, hb⟩ := h
  rw [Bool.and_eq_true, beq_iff_eq] at hb
  obtain ⟨_, rfl⟩ := hb
  simp only [DISPLAY_WIDTH, DISPLAY_HEIGHT]
  omega

/-- A position toggled by rows `n..n+rem-1` lies in one of their display rows. -/
theorem rowsToggle_div {ram : Nat → Nat} {i vx vy n rem pos : Nat}
    (h : rowsToggle ram i vx vy n rem pos = true) :
    ∃ k, k < rem ∧ pos / DISPLAY_WIDTH = (vy + (n + k)) % DISPLAY_HEIGHT := by
  unfold rowsToggle at h
  rw [List.any_eq_true] at h
  obtain ⟨k, hk, hb⟩ := h
  exact ⟨k, List.mem_range.mp hk, rowToggle1_div hb⟩

/-- The collision test only inspects pixels of the row it scans. -/
theorem rowCollide1_congr {ram : Nat → Nat} {vram1 vram : Nat → Bool} {i vx vy n : Nat}
    (hv : ∀ p, p / DISPLAY_WIDTH = (vy + n) % DISPLAY_HEIGHT → vram1 p = vram p) :
    rowCollide1 ram vram1 i vx vy n = rowCollide1 ram vram i vx vy n := by
  unfold rowCollide1
  refine anyRange_congr fun h _ => ?_
  rw [hv _ (by simp only [DISPLAY_WIDTH, DISPLAY_HEIGHT]; omega)]

/-- The multi-row collision test only inspects pixels of the scanned rows. -/
theorem rowsCollide_congr {ram : Nat → Nat} {vram1 vram : Nat → Bool} {i vx vy n rem : Nat}
    (hv : ∀ p, (∃ k, k < rem ∧ p / DISPLAY_WIDTH = (vy + (n + k)) % DISPLAY_HEIGHT) →
      vram1 p = vram p) :
    rowsCollide ram vram1 i vx vy n rem = rowsCollide ram vram i vx vy n rem := by
  unfold rowsCollide
  refine anyRange_congr fun k hk => ?_
  exact rowCollide1_congr fun p hp => hv p ⟨k, hk, hp⟩

/-- Full characterisation of the draw row loop for operand registers other
than the flag register: the frame buffer is XORed pointwise with the sprite
toggle mask, the collision bit is the accumulated `did_clear` flag tested
against the original frame buffer, and (when at least one row is drawn) the
flag register is overwritten with that bit. -/
theorem drawRowsAux_spec (ram : Nat → Nat) (i x y : Nat)
    (hx : x ≠ FLAG_REG) (hy : y ≠ FLAG_REG) :
    ∀ rem n vram v dc, i + n + rem ≤ RAM_BYTES → rem ≤ 32 →
    drawRowsAux ram i x y n rem vram v dc =
      some (fun pos => Bool.xor (vram pos) (rowsToggle ram i (v x) (v y) n rem pos),
        (if rem = 0 then v
         else Function.update v FLAG_REG
           (if dc || rowsCollide ram vram i (v x) (v y) n rem then 1 else 0)),
        dc || rowsCollide ram vram i (v x) (v y) n rem) := by
  intro rem
  induction rem with
  | zero =>
    intro n vram v dc h1 h2
    simp [drawRowsAux, rowsToggle, rowsCollide]
  | succ rem ih =>
    intro n vram v dc h1 h2
    have hoff : ¬ RAM_BYTES ≤ i + n := by
      simp only [RAM_BYTES] at h1 ⊢
      omega
    simp only [drawRowsAux]
    rw [if_neg hoff]
    set r := (List.range 8).foldl
      (drawStep (v x) ((v y + n) % DISPLAY_HEIGHT) (ram (i + n))) (vram, dc) with hr
    have hr1 : ∀ pos, r.1 pos =
        Bool.xor (vram pos) (rowToggle1 ram i (v x) (v y) n pos) := by
      intro pos
      rw [hr, drawFold_fst (v x) ((v y + n) % DISPLAY_HEIGHT) (ram (i + n))
        (List.range 8) vram dc (drawCols_nodup (v x)) pos]
      rfl
    have hr2 : r.2 = (dc || rowCollide1 ram vram i (v x) (v y) n) := by
      rw [hr, drawFold_snd (v x) ((v y + n) % DISPLAY_HEIGHT) (ram (i + n))
        (List.range 8) vram dc (drawCols_nodup (v x))]
      rfl
    rw [ih (n + 1) r.1 (Function.update v FLAG_REG (if r.2 then 1 else 0)) r.2
      (by omega) (by omega)]
    rw [Function.update_noteq hx, Function.update_noteq hy]
    have hcollagree : rowsCollide ram r.1 i (v x) (v y) (n + 1) rem =
        rowsCollide ram vram i (v x) (v y) (n + 1) rem := by
      refine rowsCollide_congr fun p hp => ?_
      obtain ⟨k, hk, hdp⟩ := hp
      rw [hr1 p]
      have ht : rowToggle1 ram i (v x) (v y) n p = false := by
        by_contra hq
        rw [Bool.not_eq_false] at hq
        have hdiv := rowToggle1_div hq
        simp only [DISPLAY_WIDTH, DISPLAY_HEIGHT] at hdiv hdp
        omega
      rw [ht]
      simp
    have hC : (r.2 || rowsCollide ram r.1 i (v x) (v y) (n + 1) rem) =
        (dc || rowsCollide ram vram i (v x) (v y) n (rem + 1)) := by
      rw [hr2, hcollagree, rowsCollide_succ, Bool.or_assoc]
    have hA : (fun pos => Bool.xor (r.1 pos)
          (rowsToggle ram i (v x) (v y) (n + 1) rem pos)) =
        (fun pos => Bool.xor (vram pos)
          (rowsToggle ram i (v x) (v y) n (rem + 1) pos)) := by
      funext pos
      rw [hr1 pos, rowsToggle_succ]
      have hdisj : rowToggle1 ram i (v x) (v y) n pos = true →
          rowsToggle ram i (v x) (v y) (n + 1) rem pos = true → False := by
        intro ha hb
        have h1' := rowToggle1_div ha
        obtain ⟨k, hk, h2'⟩ := rowsToggle_div hb
        simp only [DISPLAY_WIDTH, DISPLAY_HEIGHT] at h1' h2'
        omega
      by_cases ht1 : rowToggle1 ram i (v x) (v y) n pos = true
      · have ht2 : rowsToggle ram i (v x) (v y) (n + 1) rem pos = false := by
          by_contra hq
          rw [Bool.not_eq_false] at hq
          exact hdisj ht1 hq
        rw [ht1, ht2]
        simp
      · rw [Bool.not_eq_true] at ht1
        rw [ht1]
        simp
    rw [hA, hC]
    rw [if_neg (Nat.succ_ne_zero rem)]
    rcases rem with _ | rem'
    · rw [if_pos rfl, hr2]
      have hz2 : rowsCollide ram vram i (v x) (v y) (n + 1) 0 = false := by
        simp [rowsCollide]
      rw [rowsCollide_succ, hz2, Bool.or_false]
    · rw [if_neg (Nat.succ_ne_zero rem')]
      rw [Function.update_idem]

theorem drawRowsAux_ne_none (ram : Nat → Nat) (i x y : Nat) :
    ∀ rem n vram v dc, i + n + rem ≤ RAM_BYTES →
    drawRowsAux ram i x y n rem vram v dc ≠ none := by
  intro rem
  induction rem with
  | zero =>
    intro n vram v dc h1
    simp [drawRowsAux]
  | succ rem ih =>
    intro n vram v dc h1
    have hoff : ¬ RAM_BYTES ≤ i + n := by
      simp only [RAM_BYTES] at h1 ⊢
      omega
    simp only [drawRowsAux]
    rw [if_neg hoff]
    exact ih (n + 1) _ _ _ (by omega)

theorem rowToggle1_self {ram : Nat → Nat} {i vx vy n h : Nat} (hh : h < 8)
    (hs : sprBit (ram (i + n)) h = true) :
    rowToggle1 ram i vx vy n
      (((vy + n) % DISPLAY_HEIGHT) * DISPLAY_WIDTH + (vx + h) % DISPLAY_WIDTH) = true := by
  unfold rowToggle1
  rw [List.any_eq_true]
  exact ⟨h, List.mem_range.mpr hh, by rw [hs]; simp⟩

theorem rowsToggle_of_row {ram : Nat → Nat} {i vx vy n rem k pos : Nat} (hk : k < rem)
    (ht : rowToggle1 ram i vx vy (n + k) pos = true) :
    rowsToggle ram i vx vy n rem pos = true := by
  unfold rowsToggle
  rw [List.any_eq_true]
  exact ⟨k, List.mem_range.mpr hk, ht⟩

theorem rowsCollide_toggled (ram : Nat → Nat) (vram : Nat → Bool) (i vx vy rem : Nat) :
    rowsCollide ram
      (fun pos => Bool.xor (vram pos) (rowsToggle ram i vx vy 0 rem pos))
      i vx vy 0 rem =
    rowsCollideClear ram vram i vx vy 0 rem := by
  unfold rowsCollide rowCollide1 rowsCollideClear
  refine anyRange_congr fun k hk => ?_
  refine anyRange_congr fun h hh => ?_
  cases hs : sprBit (ram (i + (0 + k))) h with
  | false => simp
  | true =>
    have htog : rowsToggle ram i vx vy 0 rem
        (((vy + (0 + k)) % DISPLAY_HEIGHT) * DISPLAY_WIDTH + (vx + h) % DISPLAY_WIDTH)
        = true :=
      rowsToggle_of_row hk (rowToggle1_self hh hs)
    simp only [Nat.zero_add] at htog
    simp [htog]

theorem exec_draw (s : Cpu) (x y m : Nat) (hx : x ≤ MAX_REG) (hy : y ≤ MAX_REG)
    (hx15 : x ≠ FLAG_REG) (hy15 : y ≠ FLAG_REG) (hm : m ≤ 32)
    (hib : s.i + m < RAM_BYTES) :
    (execState s (Op.draw x y m)).vram =
        (fun pos => Bool.xor (s.vram pos) (rowsToggle s.ram s.i (s.v x) (s.v y) 0 m pos)) ∧
    (execState s (Op.draw x y m)).v =
        (if m = 0 then s.v
         else Function.update s.v FLAG_REG
           (if rowsCollide s.ram s.vram s.i (s.v x) (s.v y) 0 m then 1 else 0)) ∧
    (execState s (Op.draw x y m)).ram = s.ram ∧
    (execState s (Op.draw x y m)).i = s.i ∧
    execErr s (Op.draw x y m) = (if s.displayDrv then none else some Err.driverMissing) := by
  have hbound : (s.i + m) % 65536 < RAM_BYTES := by
    rw [Nat.mod_eq_of_lt (by simp only [RAM_BYTES] at hib ⊢; omega)]
    exact hib
  have hand : x ≤ MAX_REG ∧ y ≤ MAX_REG := ⟨hx, hy⟩
  have hspec := drawRowsAux_spec s.ram s.i x y hx15 hy15 m 0 s.vram s.v false
    (by omega) hm
  unfold execState execErr
  simp only [exec, if_pos hand, if_pos hbound, hspec]
  simp only [Bool.false_or]
  cases hd : s.displayDrv <;> simp [hd]

/-- C3: at a stack pointer of exactly 32 (full capacity) the call operation
does not return stack-overflow: the guard `sp > MAX_STACK_DEPTH` lets the
out-of-bounds store `stack[32]` through, which panics (modelled `none`). -/
theorem c3_call_at_capacity_panics :
    c3cex.sp = MAX_STACK_DEPTH ∧ exec c3cex (Op.call 0x300) = none := ⟨rfl, rfl⟩

/-- C4: fetch at the top of memory (pc = 4095) does not return prefetch-abort:
the guard only rejects `pc > 4095`, so the read of `ram[4096]` is out of
bounds and panics (modelled `none`). -/
theorem c4_fetch_top_panics :
    c4cex.pc = RAM_BYTES - 1 ∧ fetch c4cex = none := ⟨rfl, rfl⟩

/-- C5: counterexample - with the source register holding 0x80 (high bit set),
shift-left stores 128 in the flag register, not 1. -/
theorem c5_counterexample :
    Nat.testBit (c5cex.v 1) 7 = true ∧
    ¬ ((execState c5cex (Op.shl 0 1)).v FLAG_REG = 1) := by decide

/-- C5 (amended): shift-right stores the low bit (0 or 1) of the source
register in the flag register; shift-left stores `source AND 0x80`, which is
0 when the high bit is clear and 128 (not 1) when it is set.  Both values are
taken from the source register before the shifted result is written to the
destination (stated for destinations other than the flag register itself). -/
theorem c5_shift_flags (s : Cpu) (x y : Nat) (hx : x ≤ MAX_REG) (hy : y ≤ MAX_REG)
    (hx15 : x ≠ FLAG_REG) :
    ((execState s (Op.shr x y)).v FLAG_REG = s.v y &&& 0x01 ∧ s.v y &&& 0x01 ≤ 1) ∧
    ((execState s (Op.shl x y)).v FLAG_REG = s.v y &&& 0x80 ∧
      (s.v y &&& 0x80 = 0 ∨ s.v y &&& 0x80 = 0x80)) := by
  have hand : x ≤ MAX_REG ∧ y ≤ MAX_REG := ⟨hx, hy⟩
  refine ⟨⟨?_, Nat.and_le_right⟩, ⟨?_, ?_⟩⟩
  · unfold execState
    simp only [exec, if_pos hand]
    rw [Function.update_noteq (Ne.symm hx15), Function.update_same]
  · unfold execState
    simp only [exec, if_pos hand]
    rw [Function.update_noteq (Ne.symm hx15), Function.update_same]
  · have h7 : s.v y &&& 0x80 = (Nat.testBit (s.v y) 7).toNat * 128 := by
      have := Nat.and_two_pow (s.v y) 7
      norm_num at this
      exact this
    rw [h7]
    cases Nat.testBit (s.v y) 7 <;> simp

/-- Witness for the C5 theorem with the source register holding 0x81 (both
the low and the high bit set). -/
theorem c5_shift_flags_witness :
    ((execState c5wit (Op.shr 0 1)).v FLAG_REG = c5wit.v 1 &&& 0x01 ∧
      c5wit.v 1 &&& 0x01 ≤ 1) ∧
    ((execState c5wit (Op.shl 0 1)).v FLAG_REG = c5wit.v 1 &&& 0x80 ∧
      (c5wit.v 1 &&& 0x80 = 0 ∨ c5wit.v 1 &&& 0x80 = 0x80)) :=
  c5_shift_flags c5wit 0 1 (by decide) (by decide) (by decide)

/-- C8: one Timer Clock loop iteration in isolation decrements each of the
delay and sound counters by exactly 1 when positive, leaves a zero counter at
zero, decrements at most once, and never increases either counter. -/
theorem c8_timer_tick (t : TimerClock) :
    ((t.dt > 0 → (timerTick t).1.dt = t.dt - 1) ∧
     (t.dt = 0 → (timerTick t).1.dt = t.dt) ∧
     (timerTick t).1.dt ≤ t.dt ∧ t.dt - (timerTick t).1.dt ≤ 1) ∧
    ((t.st > 0 → (timerTick t).1.st = t.st - 1) ∧
     (t.st = 0 → (timerTick t).1.st = t.st) ∧
     (timerTick t).1.st ≤ t.st ∧ t.st - (timerTick t).1.st ≤ 1) := by
  have hdt : (timerTick t).1.dt = if t.dt > 0 then t.dt - 1 else t.dt := by
    unfold timerTick
    by_cases h1 : t.st ≤ 1 && t.stWasPos
    · rw [if_pos h1]
    · rw [if_neg h1]
      by_cases h2 : t.st > 1 && !t.stWasPos
      · rw [if_pos h2]
      · rw [if_neg h2]
  have hst : (timerTick t).1.st = if t.st > 0 then t.st - 1 else t.st := by
    unfold timerTick
    by_cases h1 : t.st ≤ 1 && t.stWasPos
    · rw [if_pos h1]
    · rw [if_neg h1]
      by_cases h2 : t.st > 1 && !t.stWasPos
      · rw [if_pos h2]
      · rw [if_neg h2]
  rw [hdt, hst]
  refine ⟨⟨fun h => ?_, fun h => ?_, ?_, ?_⟩, ⟨fun h => ?_, fun h => ?_, ?_, ?_⟩⟩ <;>
    split_ifs <;> omega

/-- Witness for the C8 theorem at delay = 5, sound = 1. -/
theorem c8_timer_tick_witness :
    (timerTick ⟨5, 1, true, true⟩).1.dt = 4 ∧ (timerTick ⟨5, 1, true, true⟩).1.st = 0 :=
  ⟨(c8_timer_tick ⟨5, 1, true, true⟩).1.1 (by decide),
   (c8_timer_tick ⟨5, 1, true, true⟩).2.1 (by decide)⟩

/-- C10: a load that fits copies the program bytes to 0x200.., sets the
program counter to 0x200 and changes nothing else; an oversized load fails
with load-failure and changes nothing. -/
theorem c10_load (s : Cpu) (data : List Nat) :
    (data.length > RAM_BYTES - LOAD_OFFSET → load s data = (s, some Err.loadFailure)) ∧
    (data.length ≤ RAM_BYTES - LOAD_OFFSET →
      (load s data).2 = none ∧
      (load s data).1.pc = LOAD_OFFSET ∧
      (∀ j, j < data.length → (load s data).1.ram (LOAD_OFFSET + j) = data.getD j 0) ∧
      (∀ a, a < LOAD_OFFSET ∨ LOAD_OFFSET + data.length ≤ a →
        (load s data).1.ram a = s.ram a) ∧
      (load s data).1.sp = s.sp ∧ (load s data).1.i = s.i ∧
      (∀ k, (load s data).1.v k = s.v k) ∧
      (∀ p, (load s data).1.vram p = s.vram p) ∧
      (∀ j, (load s data).1.stack j = s.stack j) ∧
      (load s data).1.dt = s.dt ∧ (load s data).1.st = s.st ∧
      (load s data).1.refreshLog = s.refreshLog) := by
  constructor
  · intro hbig
    unfold load
    rw [if_pos hbig]
  · intro hok
    have hnot : ¬ data.length > RAM_BYTES - LOAD_OFFSET := by omega
    unfold load
    rw [if_neg hnot]
    refine ⟨rfl, rfl, ?_, ?_, rfl, rfl, fun k => rfl, fun p => rfl, fun j => rfl,
      rfl, rfl, rfl⟩
    · intro j hj
      show (if LOAD_OFFSET ≤ LOAD_OFFSET + j ∧ LOAD_OFFSET + j < LOAD_OFFSET + data.length
        then data.getD (LOAD_OFFSET + j - LOAD_OFFSET) 0 else s.ram (LOAD_OFFSET + j)) = data.getD j 0
      rw [if_pos ⟨by omega, by omega⟩, Nat.add_sub_cancel_left]
    · intro a ha
      show (if LOAD_OFFSET ≤ a ∧ a < LOAD_OFFSET + data.length
        then data.getD (a - LOAD_OFFSET) 0 else s.ram a) = s.ram a
      rw [if_neg (by simp only [LOAD_OFFSET] at ha ⊢; omega)]

/-- Witness for the C10 theorem with a three-byte program. -/
theorem c10_load_witness :
    (load baseCpu [1, 2, 3]).2 = none ∧
    (load baseCpu [1, 2, 3]).1.pc = LOAD_OFFSET ∧
    (load baseCpu [1, 2, 3]).1.ram (LOAD_OFFSET + 1) = 2 ∧
    (load baseCpu [1, 2, 3]).1.ram 0 = baseCpu.ram 0 :=
  ⟨((c10_load baseCpu [1, 2, 3]).2 (by decide)).1,
   ((c10_load baseCpu [1, 2, 3]).2 (by decide)).2.1,
   ((c10_load baseCpu [1, 2, 3]).2 (by decide)).2.2.1 1 (by decide),
   ((c10_load baseCpu [1, 2, 3]).2 (by decide)).2.2.2.1 0 (Or.inl (by decide))⟩

/-- C6: counterexample - at index register 4088 with 8 sprite rows the bytes
occupy addresses 4088..4095, all inside the 4096-byte memory (i + m = 4096 is
not > 4096), yet the operation reports data-abort because the code requires
i + m < 4096. -/
theorem c6_counterexample :
    ¬ (execErr c6cex (Op.draw 0 1 8) = some Err.dataAbort ↔ 4096 < c6cex.i + 8) := by
  decide

/-- C6 (amended): for an index register in its semantic 12-bit range and a
byte row count, draw fails with data-abort iff i + m ≥ 4096 (one more than
the claim's strict bound), and whenever i + m < 4096 it reads only in-bounds
sprite bytes (no out-of-bounds access / panic). -/
theorem c6_draw_bounds (s : Cpu) (x y m : Nat) (hx : x ≤ MAX_REG) (hy : y ≤ MAX_REG)
    (hi : s.i ≤ 0xfff) (hm : m ≤ 0xff) :
    (execErr s (Op.draw x y m) = some Err.dataAbort ↔ RAM_BYTES ≤ s.i + m) ∧
    (s.i + m < RAM_BYTES → exec s (Op.draw x y m) ≠ none) := by
  have hand : x ≤ MAX_REG ∧ y ≤ MAX_REG := ⟨hx, hy⟩
  have hmod : (s.i + m) % 65536 = s.i + m := Nat.mod_eq_of_lt (by omega)
  by_cases hge : RAM_BYTES ≤ s.i + m
  · refine ⟨⟨fun _ => hge, fun _ => ?_⟩, fun hlt => absurd hge (by omega)⟩
    unfold execErr
    simp only [exec, if_pos hand, hmod]
    rw [if_neg (by omega)]
  · have hlt : s.i + m < RAM_BYTES := by omega
    have hne := drawRowsAux_ne_none s.ram s.i x y m 0 s.vram s.v false
      (by simp only [RAM_BYTES] at hlt ⊢; omega)
    constructor
    · refine ⟨fun habort => ?_, fun h => absurd h (by omega)⟩
      exfalso
      unfold execErr at habort
      simp only [exec, if_pos hand, hmod] at habort
      rw [if_pos hlt] at habort
      rcases hres : drawRowsAux s.ram s.i x y 0 m s.vram s.v false with _ | ⟨vram1, v1, dcb⟩
      · exact hne hres
      · rw [hres] at habort
        cases hd : s.displayDrv <;> simp [hd] at habort
    · intro _ hnone
      simp only [exec, if_pos hand, hmod] at hnone
      rw [if_pos hlt] at hnone
      rcases hres : drawRowsAux s.ram s.i x y 0 m s.vram s.v false with _ | ⟨vram1, v1, dcb⟩
      · exact hne hres
      · rw [hres] at hnone
        cases hd : s.displayDrv <;> simp [hd] at hnone

/-- Witness for the C6 theorem: abort at i + m = 4096, success at i + m = 4095. -/
theorem c6_draw_bounds_witness :
    (execErr c6cex (Op.draw 0 1 8) = some Err.dataAbort ↔ RAM_BYTES ≤ c6cex.i + 8) ∧
    (execErr { baseCpu with i := 4088 } (Op.draw 0 1 7) = some Err.dataAbort ↔
      RAM_BYTES ≤ 4088 + 7) :=
  ⟨(c6_draw_bounds c6cex 0 1 8 (by decide) (by decide) (by decide) (by decide)).1,
   (c6_draw_bounds { baseCpu with i := 4088 } 0 1 7 (by decide) (by decide) (by decide)
      (by decide)).1⟩

/-- C7: the frame-buffer effect of an in-bounds draw is a pointwise XOR with
the sprite toggle mask, whose positions are `((v[y] + row) % 32, (v[x] + col)
% 64)`: each axis wraps independently, with no carry into the other axis. -/
theorem c7_draw_wrap (s : Cpu) (x y m : Nat) (hx : x ≤ MAX_REG) (hy : y ≤ MAX_REG)
    (hx15 : x ≠ FLAG_REG) (hy15 : y ≠ FLAG_REG) (hm : m ≤ 15)
    (hib : s.i + m < RAM_BYTES) :
    ∀ pos, (execState s (Op.draw x y m)).vram pos =
      Bool.xor (s.vram pos) (spriteToggles s x y m pos) := by
  obtain ⟨h1v, -, -, -, -⟩ := exec_draw s x y m hx hy hx15 hy15 (by omega) hib
  intro pos
  rw [h1v]
  rfl

/-- Witness for the C7 theorem at the specification's wrap example (start
column 60, start row 30, three full rows), evaluated at the doubly wrapped
corner pixel (row 0, column 0). -/
theorem c7_draw_wrap_witness :
    (execState c7wit (Op.draw 0 1 3)).vram 0 =
      Bool.xor (c7wit.vram 0) (spriteToggles c7wit 0 1 3 0) :=
  c7_draw_wrap c7wit 0 1 3 (by decide) (by decide) (by decide) (by decide) (by decide)
    (by decide) 0

/-- C1: counterexample - drawing a sprite with a set bit twice on an
originally empty frame buffer leaves the flag register at 1 after the second
draw, although no pixel covered by a set sprite bit was set in the original
frame buffer; the claimed equivalence is false. -/
theorem c1_counterexample :
    ¬ (((execState (execState c1cex (Op.draw 0 1 1)) (Op.draw 0 1 1)).v FLAG_REG = 1) ↔
      spriteHitsSetPixel c1cex 0 1 1 = true) := by decide

/-- C1 (amended): for operand registers other than the flag register and a
sprite of 1..15 in-bounds rows, drawing the same sprite twice at the same
coordinates restores the frame buffer exactly, and the second draw leaves the
flag register at 1 iff some set sprite bit covers a pixel that was clear in
the original frame buffer (the first draw set exactly those pixels; the
second draw clears them again). -/
theorem c1_draw_twice (s : Cpu) (x y m : Nat) (hx : x ≤ MAX_REG) (hy : y ≤ MAX_REG)
    (hx15 : x ≠ FLAG_REG) (hy15 : y ≠ FLAG_REG) (hm : m ≤ 15) (hm0 : 1 ≤ m)
    (hib : s.i + m < RAM_BYTES) :
    (∀ pos, (execState (execState s (Op.draw x y m)) (Op.draw x y m)).vram pos =
      s.vram pos) ∧
    ((execState (execState s (Op.draw x y m)) (Op.draw x y m)).v FLAG_REG = 1 ↔
      spriteHitsClearPixel s x y m = true) := by
  obtain ⟨h1v, h1r, h1ram, h1i, -⟩ := exec_draw s x y m hx hy hx15 hy15 (by omega) hib
  set s1 := execState s (Op.draw x y m) with hs1
  have hm0' : ¬ (m = 0) := by omega
  rw [if_neg hm0'] at h1r
  have hvx : s1.v x = s.v x := by
    rw [h1r]
    exact Function.update_noteq hx15 _ _
  have hvy : s1.v y = s.v y := by
    rw [h1r]
    exact Function.update_noteq hy15 _ _
  have hib1 : s1.i + m < RAM_BYTES := by
    rw [h1i]
    exact hib
  obtain ⟨h2v, h2r, -, -, -⟩ := exec_draw s1 x y m hx hy hx15 hy15 (by omega) hib1
  rw [if_neg hm0'] at h2r
  have hcoll : rowsCollide s1.ram s1.vram s1.i (s1.v x) (s1.v y) 0 m =
      rowsCollideClear s.ram s.vram s.i (s.v x) (s.v y) 0 m := by
    rw [h1ram, h1i, hvx, hvy, h1v]
    exact rowsCollide_toggled s.ram s.vram s.i (s.v x) (s.v y) m
  constructor
  · intro pos
    have h2p : (execState s1 (Op.draw x y m)).vram pos =
        Bool.xor (s1.vram pos) (rowsToggle s1.ram s1.i (s1.v x) (s1.v y) 0 m pos) := by
      rw [h2v]
    rw [h2p, h1ram, h1i, hvx, hvy]
    have h1p : s1.vram pos =
        Bool.xor (s.vram pos) (rowsToggle s.ram s.i (s.v x) (s.v y) 0 m pos) := by
      rw [h1v]
    rw [h1p]
    cases s.vram pos <;> cases rowsToggle s.ram s.i (s.v x) (s.v y) 0 m pos <;> simp
  · rw [h2r, Function.update_same, hcoll]
    unfold spriteHitsClearPixel
    cases hq : rowsCollideClear s.ram s.vram s.i (s.v x) (s.v y) 0 m <;> simp [hq]

/-- Witness for the C1 theorem: one sprite row 0xc0 drawn twice at (3, 4)
over a buffer whose only set pixel is (3, 4); the pixel is restored and the
flag is 1 because the second sprite bit covered a clear pixel. -/
theorem c1_draw_twice_witness :
    ((execState (execState c1wit (Op.draw 0 1 1)) (Op.draw 0 1 1)).vram (4 * 64 + 3) =
      c1wit.vram (4 * 64 + 3)) ∧
    ((execState (execState c1wit (Op.draw 0 1 1)) (Op.draw 0 1 1)).v FLAG_REG = 1 ↔
      spriteHitsClearPixel c1wit 0 1 1 = true) :=
  ⟨(c1_draw_twice c1wit 0 1 1 (by decide) (by decide) (by decide) (by decide) (by decide)
      (by decide) (by decide)).1 (4 * 64 + 3),
   (c1_draw_twice c1wit 0 1 1 (by decide) (by decide) (by decide) (by decide) (by decide)
      (by decide) (by decide)).2⟩

/-- C2 (amended): whenever `exec` returns an error, no display notification
has been issued for the failing operation, and for every error other than
driver-missing the state is unchanged apart from the baseline pc advance. -/
theorem c2_exec_error_frame (s : Cpu) (op : Op) (s1 : Cpu) (e : Err)
    (h : exec s op = some (s1, some e)) :
    s1.refreshLog = s.refreshLog ∧ (e ≠ Err.driverMissing → FrameOnlyPc s s1) := by
  cases op <;>
    simp only [exec] at h <;>
    (repeat' split at h) <;>
    simp only [Option.some.injEq, Prod.mk.injEq, reduceCtorEq, and_false, false_and] at h <;>
    (try obtain ⟨rfl, rfl⟩ := h) <;>
    first
      | exact ⟨rfl, fun hne => absurd rfl hne⟩
      | exact ⟨rfl, fun hne => ⟨rfl, rfl, rfl, fun k => rfl, fun a => rfl, fun p => rfl,
          fun j => rfl, rfl, rfl, rfl⟩⟩

/-- C2: counterexample - a tick that fetches and decodes a clear-screen
instruction with no display driver attached returns driver-missing, but the
frame buffer has already been cleared: machine state other than the program
counter was modified by the failing operation. -/
theorem c2_counterexample :
    tickErr c2cex = some Err.driverMissing ∧
    ¬ ((tickState c2cex).vram 5 = c2cex.vram 5) := by decide

/-- Witness for the C2 theorem at the system-call operation, whose
unimplemented-op error leaves everything but the program counter unchanged. -/
theorem c2_exec_error_frame_witness :
    c2wits1.refreshLog = baseCpu.refreshLog ∧ c2wits1.sp = baseCpu.sp := by
  have happ := c2_exec_error_frame baseCpu (Op.sys 5) c2wits1
    (Err.unimplementedOp (Op.sys 5)) rfl
  exact ⟨happ.1, (happ.2 (by decide)).2.1⟩

/-- Every register operand the decoder produces comes from a nibble, hence is
at most 15. -/
theorem decode_regsOk (code : Nat) (op : Op) (h : Op.decode code = some op) :
    op.regsOk = true := by
  have h2 : (code &&& 0xf00) >>> 8 ≤ 15 := by
    have ha : code &&& 0xf00 ≤ 0xf00 := Nat.and_le_right
    rw [Nat.shiftRight_eq_div_pow]
    omega
  have h1 : (code &&& 0xf0) >>> 4 ≤ 15 := by
    have ha : code &&& 0xf0 ≤ 0xf0 := Nat.and_le_right
    rw [Nat.shiftRight_eq_div_pow]
    omega
  simp only [Op.decode] at h
  split at h <;>
    (try (split at h)) <;>
    simp only [Option.some.injEq, reduceCtorEq] at h <;>
    (try subst h) <;>
    simp only [Op.regsOk, Bool.and_eq_true, decide_eq_true_eq] <;>
    trivial

/-- With in-range register operands, `exec` never takes the malformed-op
fallback arm: no returned error is malformed-op. -/
theorem exec_regsOk_not_malformed (s : Cpu) (op : Op) (hok : op.regsOk = true)
    (s1 : Cpu) (e : Err) (h : exec s op = some (s1, some e)) :
    ∀ o, e ≠ Err.malformedOp o := by
  intro o he
  subst he
  cases op <;>
    simp only [Op.regsOk, Bool.and_eq_true, decide_eq_true_eq, MAX_REG] at hok ⊢ <;>
    simp only [exec, MAX_REG] at h <;>
    (repeat' split at h) <;>
    simp only [Option.some.injEq, Prod.mk.injEq, reduceCtorEq, and_false, false_and] at h

/-- `tick` never returns a malformed-op error. -/
theorem tick_no_malformed (s : Cpu)
    (s1 : Cpu) (e : Err) (h : tick s = some (s1, some e)) :
    ∀ o, e ≠ Err.malformedOp o := by
  unfold tick at h
  rcases hf : fetch s with _ | ef | code
  · rw [hf] at h
    exact absurd h (by simp)
  · rw [hf] at h
    have hef : ef = Err.prefetchAbort := by
      unfold fetch at hf
      split at hf
      · simp only [Option.some.injEq, Except.error.injEq] at hf
        exact hf.symm
      · split at hf
        · simp at hf
        · simp at hf
    simp at h
    obtain ⟨rfl, rfl⟩ := h
    subst hef
    intro o
    simp
  · rw [hf] at h
    simp only [Option.some.injEq] at h
    rcases hd : Op.decode code with _ | op
    · rw [hd] at h
      simp at h
      obtain ⟨rfl, rfl⟩ := h
      intro o
      simp
    · rw [hd] at h
      simp only [Option.some.injEq] at h
      exact exec_regsOk_not_malformed s op (decode_regsOk code op hd) s1 e h

/-- C9: decoding yields only operations whose register operands are in 0-15;
for such operations `exec` never takes the malformed-op fallback arm; hence a
tick never returns the malformed-op error for any machine state. -/
theorem c9_no_malformed_op :
    (∀ code op, Op.decode code = some op → op.regsOk = true) ∧
    (∀ (s : Cpu) (op : Op) (s1 : Cpu) (e : Err), op.regsOk = true →
      exec s op = some (s1, some e) → ∀ o, e ≠ Err.malformedOp o) ∧
    (∀ (s s1 : Cpu) (e : Err), tick s = some (s1, some e) →
      ∀ o, e ≠ Err.malformedOp o) :=
  ⟨fun code op h => decode_regsOk code op h,
   fun s op s1 e hok h => exec_regsOk_not_malformed s op hok s1 e h,
   fun s s1 e h => tick_no_malformed s s1 e h⟩

/-- Witness for the C9 theorem: instruction word 0x8126 decodes to a shift
with in-range registers, and the error a base machine's first tick returns
(unimplemented-op for the system-call instruction 0x0000) is not
malformed-op. -/
theorem c9_no_malformed_op_witness :
    (Op.shr 2 1 : Op).regsOk = true ∧
    Err.unimplementedOp (Op.sys 0) ≠ Err.malformedOp (Op.sys 0) :=
  ⟨c9_no_malformed_op.1 0x8126 (Op.shr 2 1) (by decide),
   c9_no_malformed_op.2.2 baseCpu { baseCpu with pc := 0x202 }
     (Err.unimplementedOp (Op.sys 0)) rfl (Op.sys 0)⟩

end Chip8
